import Mathlib

/-!
Cognito token-exchange gateway (`api/resources/jwt/main.go`, `api/common.go`)

A shallow embedding of the Lambda handler that exchanges an OAuth2 authorization
code or refresh token at the Cognito token endpoint, verifies the access token
against the pool's JWKS and returns a small session payload.

Modelling conventions

* Go strings are Lean `String`s (sequences of characters).  The two string
  functions the handler uses, `strings.ReplaceAll` and `strings.TrimPrefix`,
  are written out on the character list; the handler calls them with ASCII
  arguments only (`"."`, `"-"`, `"AmazonFederate_"`), for which the reading by
  character and the reading by byte agree on UTF-8 text.
* A Go function returning `(T, error)` returns a `GoResult T`: `ok v` is
  `(v, nil)`, `err m` is `(zero, errors.New(m))`, `panic m` is a run-time panic.
* Everything outside the process is a field of `World`: the environment, the
  HTTP client, the JWKS fetch, the JWT verifier and the JSON text codec.  Every
  call the handler makes to the token endpoint, the body decoder, the JWKS
  endpoint or the verifier is recorded, in order, in a list of `Event`s.
* `fmt.Printf` logging is not part of the model.
-/

namespace JwtAuth

/-! ## Go library functions used by the handler -/

/-- Scanning loop of `strings.ReplaceAll` for a non-empty `old`: `skip` counts the
characters of a matched occurrence that are still to be dropped. -/
def replaceScan (old new : List Char) : Nat → List Char → List Char
  | _, [] => []
  | skip + 1, _ :: cs => replaceScan old new skip cs
  | 0, c :: cs =>
    if old.isPrefixOf (c :: cs) then new ++ replaceScan old new (old.length - 1) cs
    else c :: replaceScan old new 0 cs

/-- Go `strings.ReplaceAll(s, old, new)`: every non-overlapping occurrence of `old`
in `s`, found left to right, is replaced by `new`.  For an empty `old` Go inserts
`new` before every character and at the end. -/
def ReplaceAll (s old new : String) : String :=
  if old.data = [] then
    ⟨(s.data.map (fun c => new.data ++ [c])).flatten ++ new.data⟩
  else
    ⟨replaceScan old.data new.data 0 s.data⟩

/-- Go `strings.HasPrefix(s, p)`. -/
def HasPrefix (s p : String) : Bool :=
  p.data.isPrefixOf s.data

/-- Go `strings.TrimPrefix(s, p)`: `s` without the leading `p` when `s` starts with
`p`, and `s` itself otherwise. -/
def TrimPrefix (s p : String) : String :=
  if HasPrefix s p then ⟨s.data.drop p.data.length⟩ else s

/-- The `%d` verb of `fmt` on an `int`: decimal digits with a leading `-` for a
negative number. -/
def fmtInt (n : Int) : String :=
  toString n

/-! ## Values -/

/-- A decoded JSON value, also used for the dynamic (`interface{}`) value of a
token claim.  `int` is a number literal without fraction or exponent, `real` any
other number literal. -/
inductive Json where
  | null
  | bool (b : Bool)
  | int (n : Int)
  | real (lit : String)
  | str (s : String)
  | arr (items : List Json)
  | obj (members : List (String × Json))

/-- Outcome of a Go call that returns `(T, error)`. -/
inductive GoResult (α : Type) where
  | ok (v : α)
  | err (msg : String)
  | panic (msg : String)
  deriving DecidableEq, Repr

/-- Go `map[string]string`, as an association list with distinct keys. -/
abbrev StrMap := List (String × String)

/-- Map read `m[k]`, with the zero value `""` for a missing key. -/
def StrMap.get (m : StrMap) (k : String) : String :=
  match m.lookup k with
  | some v => v
  | none => ""

/-- Map write `m[k] = v`. -/
def StrMap.set : StrMap → String → String → StrMap
  | [], k, v => [(k, v)]
  | (k', v') :: m, k, v => if k' = k then (k, v) :: m else (k', v') :: StrMap.set m k v

/-- Go `url.Values`, a `map[string][]string`. -/
abbrev Values := List (String × List String)

/-- The `events.APIGatewayProxyRequest` fields the handler reads. -/
structure APIGatewayProxyRequest where
  Resource : String
  Path : String
  HTTPMethod : String
  QueryStringParameters : StrMap
  deriving DecidableEq, Repr

/-- The `events.APIGatewayProxyResponse` fields the handler writes. -/
structure APIGatewayProxyResponse where
  StatusCode : Int
  Headers : StrMap
  Body : String
  deriving DecidableEq, Repr

/-- The part of `http.Response` the handler reads. -/
structure HttpResponse where
  StatusCode : Int
  Body : String
  deriving DecidableEq, Repr

/-- A `jwk.Set`: key identifier to public key material. -/
abbrev KeySet := List (String × String)

/-- A verified `jwt.Token`: its claims. -/
structure JwtToken where
  claims : List (String × Json)

/-- The `Get` method of `jwt.Token`: the claim value and whether it is present. -/
def JwtToken.Get (t : JwtToken) (name : String) : Option Json :=
  t.claims.lookup name

/-- The anonymous `token` struct decoded from the token endpoint's response. -/
structure Token where
  AccessToken : String
  IDToken : String
  RefreshToken : String
  ExpiresIn : Int
  deriving DecidableEq, Repr

/-- The anonymous `retval` struct marshalled into the response body. -/
structure Retval where
  IDToken : String
  RefreshToken : String
  Username : String
  ExpiresIn : Int
  deriving DecidableEq, Repr

/-- A call that leaves the process or consumes its answer. -/
inductive Event where
  | post (url : String) (data : Values)
  | decode (body : String)
  | fetch (url : String)
  | parse (token : String) (keys : KeySet)
  deriving DecidableEq, Repr

/-- Everything the handler obtains from outside.
* `getenv` is `os.Getenv` (the empty string for an unset variable);
* `postForm` is `http.PostForm`;
* `readJSON` is the syntactic half of `json.Decoder.Decode`: the first JSON value
  on the body stream;
* `foldName` is the case folding `encoding/json` applies to object keys;
* `jwkFetch` is `jwk.Fetch`, `marshalKeys` is `json.Marshal` on the key set;
* `jwtParse` is `jwt.Parse` with `jwt.WithKeySet`;
* `writeJSON` is the textual half of `json.Marshal`. -/
structure World where
  getenv : String → String
  postForm : String → Values → Except String HttpResponse
  readJSON : String → Except String Json
  foldName : String → String
  jwkFetch : String → Except String KeySet
  marshalKeys : KeySet → Except String String
  jwtParse : String → KeySet → Except String JwtToken
  writeJSON : Json → Except String String

/-! ## `api/common.go` -/

/-- Go `AddCORSHeaders(response)`.  The struct is passed by value, but its `Headers`
map is shared with the caller, so the three writes are visible in the caller's
response: the embedding returns the response with the updated map. -/
def AddCORSHeaders (response : APIGatewayProxyResponse) : APIGatewayProxyResponse :=
  let h := response.Headers
  let h := h.set "Access-Control-Allow-Headers"
    "Content-Type,X-Amz-Date,Authorization,X-Api-Key,X-Amz-Security-Token,X-Amz-User-Agent,X-KG-Partition"
  let h := h.set "Access-Control-Allow-Origin" "*"
  let h := h.set "Access-Control-Allow-Methods" "OPTIONS, GET, PUT, POST, DELETE, PATCH, HEAD"
  { response with Headers := h }

/-- Go `Fail(code, msg)`: a failure response. -/
def Fail (code : Int) (msg : String) : APIGatewayProxyResponse :=
  let response : APIGatewayProxyResponse :=
    { StatusCode := code, Headers := [], Body := "\x7b\"message\": \"" ++ msg ++ "\"\x7d" }
  let response := AddCORSHeaders response
  { response with Headers := response.Headers.set "X-Rain-Webapp-Error" msg }

/-! ## Decoding the token endpoint's response (`encoding/json` into the `token` struct) -/

/-- The fields of the `token` struct. -/
inductive TokenField where
  | accessToken
  | idToken
  | refreshToken
  | expiresIn
  deriving DecidableEq, Repr

/-- The `json:"..."` tag of a field of the `token` struct. -/
def TokenField.tag : TokenField → String
  | .accessToken => "access_token"
  | .idToken => "id_token"
  | .refreshToken => "refresh_token"
  | .expiresIn => "expires_in"

/-- The fields of the `token` struct in declaration order. -/
def tokenFields : List TokenField :=
  [.accessToken, .idToken, .refreshToken, .expiresIn]

/-- The struct field an object key is decoded into by `encoding/json`: the field
whose tag equals the key, and failing that the first field whose tag equals the
key up to case folding; a key that matches no field is skipped. -/
def fieldOfKey (fold : String → String) (key : String) : Option TokenField :=
  match tokenFields.find? (fun f => f.tag = key) with
  | some f => some f
  | none => tokenFields.find? (fun f => fold f.tag = fold key)

/-- The zero value of the `token` struct (`var token struct{...}`). -/
def Token.zero : Token :=
  { AccessToken := "", IDToken := "", RefreshToken := "", ExpiresIn := 0 }

/-- Storing one JSON value into a field of the `token` struct.  A JSON `null` leaves
the field as it is; a string goes into a string field; an integer literal that
fits `int64` goes into `ExpiresIn`; anything else is an `UnmarshalTypeError`,
which makes `Decode` return an error (`none`). -/
def storeField (t : Token) : TokenField → Json → Option Token
  | _, .null => some t
  | .accessToken, .str s => some { t with AccessToken := s }
  | .idToken, .str s => some { t with IDToken := s }
  | .refreshToken, .str s => some { t with RefreshToken := s }
  | .expiresIn, .int n =>
    if -(2 : Int) ^ 63 ≤ n ∧ n < (2 : Int) ^ 63 then some { t with ExpiresIn := n } else none
  | _, _ => none

/-- Decoding the members of a JSON object into the struct, in the order they appear
(a later member for the same field overwrites an earlier one). -/
def decodeMembers (fold : String → String) : Token → List (String × Json) → Option Token
  | t, [] => some t
  | t, (k, v) :: ms =>
    match fieldOfKey fold k with
    | none => decodeMembers fold t ms
    | some f =>
      match storeField t f v with
      | none => none
      | some t' => decodeMembers fold t' ms

/-- Decoding a JSON value into the zero `token` struct: `null` leaves it zero, an
object is decoded member by member, any other value is an `UnmarshalTypeError`. -/
def decodeTokenValue (fold : String → String) : Json → Option Token
  | .null => some Token.zero
  | .obj ms => decodeMembers fold Token.zero ms
  | _ => none

/-- Go `json.NewDecoder(resp.Body).Decode(&token)`; `none` is a non-nil error. -/
def decodeToken (w : World) (body : String) : Option Token :=
  match w.readJSON body with
  | .error _ => none
  | .ok j => decodeTokenValue w.foldName j

/-- The value `json.Marshal` writes for the `retval` struct: an object with the
four tagged fields in declaration order. -/
def retvalJson (r : Retval) : Json :=
  .obj [("idToken", .str r.IDToken), ("refreshToken", .str r.RefreshToken),
        ("username", .str r.Username), ("expiresIn", .int r.ExpiresIn)]

/-- The Go dynamic type of a decoded JSON value held in an `interface{}`. -/
def goTypeName : Json → String
  | .null => "nil"
  | .bool _ => "bool"
  | .int _ => "float64"
  | .real _ => "float64"
  | .str _ => "string"
  | .arr _ => "[]interface \x7b\x7d"
  | .obj _ => "map[string]interface \x7b\x7d"

/-- The message of the run-time panic of `v.(string)` on a value that is not a string. -/
def conversionPanic (v : Json) : String :=
  "interface conversion: interface \x7b\x7d is " ++ goTypeName v ++ ", not string"

/-- The type assertion `v.(string)` on a dynamic value: `none` is the run-time panic
of an unchecked assertion on a value that is not a string. -/
def assertString : Json → Option String
  | .str s => some s
  | _ => none

/-! ## `api/resources/jwt/main.go` -/

/-- Go `getCognitoIssuer()`: the Cognito issuer URL. -/
def getCognitoIssuer (w : World) : GoResult String :=
  let region := w.getenv "COGNITO_REGION"
  if region = "" then .err "missing COGNITO_REGION"
  else
    let cognitoPoolID := w.getenv "COGNITO_POOL_ID"
    if cognitoPoolID = "" then .err "missing COGNITO_POOL_ID"
    else .ok ("https://cognito-idp." ++ region ++ ".amazonaws.com/" ++ cognitoPoolID)

/-- Go `getPublicKeys()`: the public keys of the Cognito issuer, with the calls made. -/
def getPublicKeys (w : World) : GoResult KeySet × List Event :=
  match getCognitoIssuer w with
  | .err e => (.err e, [])
  | .panic e => (.panic e, [])
  | .ok cognitoIssuer =>
    let url := cognitoIssuer ++ "/.well-known/jwks.json"
    match w.jwkFetch url with
    | .error e => (.err e, [.fetch url])
    | .ok set =>
      match w.marshalKeys set with
      | .error e => (.err e, [.fetch url])
      | .ok _ => (.ok set, [.fetch url])

/-- The token endpoint URL of `handleAuth` (the `fmt.Sprintf` of lines 117-118), from
the domain prefix after `ReplaceAll` and the region. -/
def tokenEndpointURL (cognitoDomainPrefix cognitoRegion : String) : String :=
  "https://" ++ cognitoDomainPrefix ++ ".auth." ++ cognitoRegion ++ ".amazoncognito.com/oauth2/token"

/-- The form `handleAuth` posts (lines 120-139); `none` is the early
`return "", errors.New("no refresh token")`. -/
def postData (code refresh cognitoClientID redirectURI : String) : Option Values :=
  if code ≠ "" then
    some [("grant_type", ["authorization_code"]),
          ("client_id", [cognitoClientID]),
          ("code", [code]),
          ("redirect_uri", [redirectURI])]
  else
    if refresh = "" then none
    else
      some [("grant_type", ["refresh_token"]),
            ("client_id", [cognitoClientID]),
            ("refresh_token", [refresh])]

/-- Go `handleAuth(code, refresh)`: the returned `(string, error)` and the calls made. -/
def handleAuth (w : World) (code refresh : String) : GoResult String × List Event :=
  let redirectURI := w.getenv "COGNITO_REDIRECT_URI"
  let cognitoDomainPrefix := w.getenv "COGNITO_DOMAIN_PREFIX"
  let cognitoDomainPrefix := ReplaceAll cognitoDomainPrefix "." "-"
  let cognitoClientID := w.getenv "COGNITO_APP_CLIENT_ID"
  let cognitoRegion := w.getenv "COGNITO_REGION"
  let tokenEndpoint := tokenEndpointURL cognitoDomainPrefix cognitoRegion
  match postData code refresh cognitoClientID redirectURI with
  | none => (.err "no refresh token", [])
  | some postData =>
    let tr := [Event.post tokenEndpoint postData]
    match w.postForm tokenEndpoint postData with
    | .error _ => (.err "token endpoint failed", tr)
    | .ok resp =>
      if resp.StatusCode ≥ 400 then
        (.err ("request to " ++ tokenEndpoint ++ " failed with Status " ++ fmtInt resp.StatusCode), tr)
      else
        let tr := tr ++ [Event.decode resp.Body]
        match decodeToken w resp.Body with
        | none => (.err "failed to decode token response", tr)
        | some token =>
          match getPublicKeys w with
          | (.err e, ks) => (.err e, tr ++ ks)
          | (.panic e, ks) => (.panic e, tr ++ ks)
          | (.ok keys, ks) =>
            let tr := tr ++ ks ++ [Event.parse token.AccessToken keys]
            match w.jwtParse token.AccessToken keys with
            | .error _ => (.err "failed to verify token", tr)
            | .ok parsed =>
              match parsed.Get "username" with
              | none => (.err "missing username", tr)
              | some userName =>
                match assertString userName with
                | none => (.panic (conversionPanic userName), tr)
                | some userName =>
                  let retval : Retval :=
                    { IDToken := token.IDToken,
                      RefreshToken := token.RefreshToken,
                      Username := TrimPrefix userName "AmazonFederate_",
                      ExpiresIn := token.ExpiresIn }
                  match w.writeJSON (retvalJson retval) with
                  | .error _ => (.err "failed to encode response", tr)
                  | .ok jsonData => (.ok jsonData, tr)

/-- Go `HandleRequest(ctx, request)` of the `jwt` resource: `ok r` is the return
`(r, nil)`; the second component lists the calls made. -/
def HandleRequest (w : World) (request : APIGatewayProxyRequest) :
    GoResult APIGatewayProxyResponse × List Event :=
  let headers : StrMap := []
  let code := request.QueryStringParameters.get "code"
  let refresh := request.QueryStringParameters.get "refresh"
  let response : APIGatewayProxyResponse :=
    { StatusCode := 200, Headers := headers, Body := "\x7b\"message\": \"Success\"\x7d" }
  let response := AddCORSHeaders response
  if request.HTTPMethod = "GET" then
    match handleAuth w code refresh with
    | (.err _, tr) => (.ok (Fail 401 "Auth Failure"), tr)
    | (.panic e, tr) => (.panic e, tr)
    | (.ok jsonData, tr) => (.ok { response with Body := jsonData }, tr)
  else if request.HTTPMethod = "OPTIONS" then
    (.ok { response with StatusCode := 204, Body := "\x7b\x7d" }, [])
  else
    (.ok (Fail 400 ("Unexpected HttpMethod: " ++ request.HTTPMethod)), [])

/-! ## Concrete worlds -/

/-- A configured environment. -/
def sampleEnv : String → String
  | "COGNITO_REGION" => "us-east-1"
  | "COGNITO_POOL_ID" => "us-east-1_Abc"
  | "COGNITO_REDIRECT_URI" => "https://app.example.com/cb"
  | "COGNITO_DOMAIN_PREFIX" => "my.app"
  | "COGNITO_APP_CLIENT_ID" => "client1"
  | _ => ""

/-- Case folding of the concrete worlds: ASCII letters to lower case. -/
def asciiLower (s : String) : String :=
  ⟨s.data.map Char.toLower⟩

/-- Text of a scalar JSON value in the concrete worlds (no escaping). -/
def renderScalar : Json → String
  | .null => "null"
  | .bool b => toString b
  | .int n => toString n
  | .real lit => lit
  | .str s => "\"" ++ s ++ "\""
  | _ => "?"

/-- Text of a flat JSON object in the concrete worlds. -/
def renderFlat : Json → String
  | .obj ms =>
    "\x7b" ++ ",".intercalate (ms.map (fun m => "\"" ++ m.1 ++ "\":" ++ renderScalar m.2)) ++ "\x7d"
  | j => renderScalar j

/-- A world in which every step succeeds: the token endpoint answers 200 with
`body`, which reads as the JSON value `j`, and the verifier yields `claims`. -/
def happyWorld (env : String → String) (j : Json) (claims : List (String × Json)) : World :=
  { getenv := env
    postForm := fun _ _ => .ok { StatusCode := 200, Body := "body" }
    readJSON := fun _ => .ok j
    foldName := asciiLower
    jwkFetch := fun _ => .ok [("kid1", "key1")]
    marshalKeys := fun _ => .ok "keys"
    jwtParse := fun _ _ => .ok { claims := claims }
    writeJSON := fun j => .ok (renderFlat j) }

/-- A token response with all four members. -/
def sampleTokenJson : Json :=
  .obj [("access_token", .str "AT"), ("id_token", .str "IT"),
        ("refresh_token", .str "RT"), ("expires_in", .int 3600)]

/-! ## Vocabulary of the statements -/

/-- The URL `handleAuth` posts to in world `w`. -/
def endpointOf (w : World) : String :=
  tokenEndpointURL (ReplaceAll (w.getenv "COGNITO_DOMAIN_PREFIX") "." "-") (w.getenv "COGNITO_REGION")

/-- The form `handleAuth` posts in world `w`, if it posts one. -/
def formOf (w : World) (code refresh : String) : Option Values :=
  postData code refresh (w.getenv "COGNITO_APP_CLIENT_ID") (w.getenv "COGNITO_REDIRECT_URI")

/-- The run of `handleAuth w code refresh` gets as far as `jwt.Parse`: a form was
posted, the token endpoint answered below 400 with a body that decodes to
`token`, and `getPublicKeys` returned `keys`. -/
def ReachesParse (w : World) (code refresh : String) (token : Token) (keys : KeySet) : Prop :=
  ∃ form resp, formOf w code refresh = some form ∧
    w.postForm (endpointOf w) form = .ok resp ∧ resp.StatusCode < 400 ∧
    decodeToken w resp.Body = some token ∧ (getPublicKeys w).1 = .ok keys

/-- The ways `handleAuth w code refresh` fails, in the order of its checks. -/
inductive AuthFailure (w : World) (code refresh : String) : Prop where
  | noGrant (hcode : code = "") (hrefresh : refresh = "")
  | transport (form : Values) (e : String)
      (hform : formOf w code refresh = some form)
      (hpost : w.postForm (endpointOf w) form = .error e)
  | rejected (form : Values) (resp : HttpResponse)
      (hform : formOf w code refresh = some form)
      (hpost : w.postForm (endpointOf w) form = .ok resp)
      (hst : resp.StatusCode ≥ 400)
  | undecodable (form : Values) (resp : HttpResponse)
      (hform : formOf w code refresh = some form)
      (hpost : w.postForm (endpointOf w) form = .ok resp)
      (hst : resp.StatusCode < 400)
      (hdec : decodeToken w resp.Body = none)
  | keyFetch (form : Values) (resp : HttpResponse) (token : Token) (e : String)
      (hform : formOf w code refresh = some form)
      (hpost : w.postForm (endpointOf w) form = .ok resp)
      (hst : resp.StatusCode < 400)
      (hdec : decodeToken w resp.Body = some token)
      (hkeys : (getPublicKeys w).1 = .err e)
  | verification (token : Token) (keys : KeySet) (e : String)
      (hreach : ReachesParse w code refresh token keys)
      (hparse : w.jwtParse token.AccessToken keys = .error e)
  | missingUsername (token : Token) (keys : KeySet) (parsed : JwtToken)
      (hreach : ReachesParse w code refresh token keys)
      (hparse : w.jwtParse token.AccessToken keys = .ok parsed)
      (hname : parsed.Get "username" = none)

/-- The value of a field of the `token` struct, as a JSON value. -/
def Token.get (t : Token) : TokenField → Json
  | .accessToken => .str t.AccessToken
  | .idToken => .str t.IDToken
  | .refreshToken => .str t.RefreshToken
  | .expiresIn => .int t.ExpiresIn

/-- The configured environment without `COGNITO_POOL_ID`. -/
def poollessEnv : String → String
  | "COGNITO_REGION" => "us-east-1"
  | "COGNITO_REDIRECT_URI" => "https://app.example.com/cb"
  | "COGNITO_DOMAIN_PREFIX" => "my.app"
  | "COGNITO_APP_CLIENT_ID" => "client1"
  | _ => ""

/-- The configured environment without `COGNITO_REDIRECT_URI`. -/
def noRedirectEnv : String → String
  | "COGNITO_REGION" => "us-east-1"
  | "COGNITO_POOL_ID" => "us-east-1_Abc"
  | "COGNITO_DOMAIN_PREFIX" => "my.app"
  | "COGNITO_APP_CLIENT_ID" => "client1"
  | _ => ""

/-- A token response without a `refresh_token` member, as on a refresh grant. -/
def refreshGrantJson : Json :=
  .obj [("access_token", .str "AT"), ("id_token", .str "IT"), ("expires_in", .int 3600)]

/-- The number a string of decimal digits denotes, most significant digit first. -/
def decimalValue (ds : List Char) : Nat :=
  ds.foldl (fun a c => 10 * a + (c.toNat - '0'.toNat)) 0

/-- A token response whose keys differ from the struct tags by case: next to
`id_token` it has an `ID_TOKEN` member, and its refresh token is under
`REFRESH_TOKEN`. -/
def foldedKeysJson : Json :=
  .obj [("access_token", .str "AT"), ("id_token", .str "A"), ("ID_TOKEN", .str "B"),
        ("REFRESH_TOKEN", .str "X"), ("expires_in", .int 3600)]

/-- A world whose token endpoint cannot be reached. -/
def unreachableWorld (env : String → String) : World :=
  { getenv := env
    postForm := fun _ _ => .error "dial tcp: connection refused"
    readJSON := fun _ => .error "unused"
    foldName := asciiLower
    jwkFetch := fun _ => .error "unused"
    marshalKeys := fun _ => .error "unused"
    jwtParse := fun _ _ => .error "unused"
    writeJSON := fun _ => .error "unused" }

/-- A world whose token endpoint answers every request with `resp`. -/
def answeringWorld (env : String → String) (resp : HttpResponse) : World :=
  { getenv := env
    postForm := fun _ _ => .ok resp
    readJSON := fun _ => .error "unused"
    foldName := asciiLower
    jwkFetch := fun _ => .error "unused"
    marshalKeys := fun _ => .error "unused"
    jwtParse := fun _ _ => .error "unused"
    writeJSON := fun _ => .error "unused" }

/-- A `GET` request with the given query parameters. -/
def getRequest (params : StrMap) : APIGatewayProxyRequest :=
  { Resource := "/jwt", Path := "/jwt", HTTPMethod := "GET", QueryStringParameters := params }

/-! ## Lemmas on the run of `handleAuth` -/

theorem handleAuth_no_form (w : World) (code refresh : String)
    (hform : formOf w code refresh = none) :
    handleAuth w code refresh = (.err "no refresh token", []) := by
  unfold formOf at hform
  simp only [handleAuth, hform]

theorem handleAuth_post_error (w : World) (code refresh : String) (form : Values) (e : String)
    (hform : formOf w code refresh = some form)
    (hpost : w.postForm (endpointOf w) form = .error e) :
    handleAuth w code refresh =
      (.err "token endpoint failed", [.post (endpointOf w) form]) := by
  unfold formOf at hform
  unfold endpointOf at hpost
  simp only [handleAuth, hform, hpost]
  rfl

theorem handleAuth_status_rejected (w : World) (code refresh : String) (form : Values)
    (resp : HttpResponse)
    (hform : formOf w code refresh = some form)
    (hpost : w.postForm (endpointOf w) form = .ok resp)
    (hst : resp.StatusCode ≥ 400) :
    handleAuth w code refresh =
      (.err ("request to " ++ endpointOf w ++ " failed with Status " ++ fmtInt resp.StatusCode),
        [.post (endpointOf w) form]) := by
  unfold formOf at hform
  unfold endpointOf at hpost
  simp only [handleAuth, hform, hpost, hst, if_true]
  rfl

theorem handleAuth_undecodable (w : World) (code refresh : String) (form : Values)
    (resp : HttpResponse)
    (hform : formOf w code refresh = some form)
    (hpost : w.postForm (endpointOf w) form = .ok resp)
    (hst : resp.StatusCode < 400)
    (hdec : decodeToken w resp.Body = none) :
    handleAuth w code refresh =
      (.err "failed to decode token response",
        [.post (endpointOf w) form, .decode resp.Body]) := by
  unfold formOf at hform
  unfold endpointOf at hpost
  have hst' : ¬ resp.StatusCode ≥ 400 := not_le.mpr hst
  simp only [handleAuth, hform, hpost, hst', if_false, hdec]
  rfl

/-- The run of `handleAuth` once the token response is decoded: what remains is the
key fetch, the verification and the construction of the payload. -/
theorem handleAuth_decoded (w : World) (code refresh : String) (form : Values)
    (resp : HttpResponse) (token : Token)
    (hform : formOf w code refresh = some form)
    (hpost : w.postForm (endpointOf w) form = .ok resp)
    (hst : resp.StatusCode < 400)
    (hdec : decodeToken w resp.Body = some token) :
    handleAuth w code refresh =
      (match getPublicKeys w with
        | (.err e, ks) => (.err e, [.post (endpointOf w) form, .decode resp.Body] ++ ks)
        | (.panic e, ks) => (.panic e, [.post (endpointOf w) form, .decode resp.Body] ++ ks)
        | (.ok keys, ks) =>
          let tr := [Event.post (endpointOf w) form, .decode resp.Body] ++ ks ++
            [.parse token.AccessToken keys]
          match w.jwtParse token.AccessToken keys with
          | .error _ => (.err "failed to verify token", tr)
          | .ok parsed =>
            match parsed.Get "username" with
            | none => (.err "missing username", tr)
            | some userName =>
              match assertString userName with
              | none => (.panic (conversionPanic userName), tr)
              | some userName =>
                match w.writeJSON (retvalJson
                    { IDToken := token.IDToken, RefreshToken := token.RefreshToken,
                      Username := TrimPrefix userName "AmazonFederate_",
                      ExpiresIn := token.ExpiresIn }) with
                | .error _ => (.err "failed to encode response", tr)
                | .ok jsonData => (.ok jsonData, tr)) := by
  unfold formOf at hform
  unfold endpointOf at hpost
  have hst' : ¬ resp.StatusCode ≥ 400 := not_le.mpr hst
  simp only [handleAuth, hform, hpost, hst', if_false, hdec]
  rfl

/-- The three shapes of a `getPublicKeys` result. -/
theorem getPublicKeys_cases (w : World) :
    (∃ e, getPublicKeys w = (.err e, []) ∧ getCognitoIssuer w = .err e) ∨
    (∃ iss e, getCognitoIssuer w = .ok iss ∧
      getPublicKeys w = (.err e, [.fetch (iss ++ "/.well-known/jwks.json")])) ∨
    (∃ iss keys, getCognitoIssuer w = .ok iss ∧
      w.jwkFetch (iss ++ "/.well-known/jwks.json") = .ok keys ∧
      getPublicKeys w = (.ok keys, [.fetch (iss ++ "/.well-known/jwks.json")])) := by
  unfold getPublicKeys
  cases hiss : getCognitoIssuer w with
  | err e => left; exact ⟨e, rfl, rfl⟩
  | panic e =>
    exfalso
    unfold getCognitoIssuer at hiss
    dsimp only at hiss
    split at hiss
    · cases hiss
    · split at hiss <;> cases hiss
  | ok iss =>
    right
    dsimp only
    cases hf : w.jwkFetch (iss ++ "/.well-known/jwks.json") with
    | error e => left; exact ⟨iss, e, rfl, rfl⟩
    | ok set =>
      dsimp only
      cases hm : w.marshalKeys set with
      | error e => left; exact ⟨iss, e, rfl, rfl⟩
      | ok _ => right; exact ⟨iss, set, rfl, hf, rfl⟩

/-- The run of `handleAuth` from `jwt.Parse` on. -/
theorem handleAuth_reaches (w : World) (code refresh : String) (token : Token) (keys : KeySet)
    (h : ReachesParse w code refresh token keys) :
    ∃ tr, handleAuth w code refresh =
      (match w.jwtParse token.AccessToken keys with
        | .error _ => (.err "failed to verify token", tr)
        | .ok parsed =>
          match parsed.Get "username" with
          | none => (.err "missing username", tr)
          | some userName =>
            match assertString userName with
            | none => (.panic (conversionPanic userName), tr)
            | some userName =>
              match w.writeJSON (retvalJson
                  { IDToken := token.IDToken, RefreshToken := token.RefreshToken,
                    Username := TrimPrefix userName "AmazonFederate_",
                    ExpiresIn := token.ExpiresIn }) with
              | .error _ => (.err "failed to encode response", tr)
              | .ok jsonData => (.ok jsonData, tr)) := by
  obtain ⟨form, resp, hform, hpost, hst, hdec, hkeys⟩ := h
  rw [handleAuth_decoded w code refresh form resp token hform hpost hst hdec]
  rcases hk : getPublicKeys w with ⟨r, ks⟩
  rw [hk] at hkeys
  dsimp only at hkeys
  subst hkeys
  exact ⟨_, rfl⟩

/-- With `old = "."` and `new = "-"` the scan is a character-wise substitution. -/
theorem replaceScan_dot (l : List Char) :
    replaceScan ['.'] ['-'] 0 l = l.map (fun c => if c = '.' then '-' else c) := by
  induction l with
  | nil => rfl
  | cons c cs ih =>
    by_cases hc : c = '.'
    · subst hc
      simp [replaceScan, List.isPrefixOf, ih]
    · have hc' : ¬ '.' = c := fun h => hc h.symm
      simp [replaceScan, List.isPrefixOf, ih, hc, hc']

theorem ReplaceAll_dot (p : String) :
    (ReplaceAll p "." "-").data = p.data.map (fun c => if c = '.' then '-' else c) := by
  have h : ReplaceAll p "." "-" = ⟨replaceScan ['.'] ['-'] 0 p.data⟩ := rfl
  rw [h, replaceScan_dot]

theorem formOf_none_iff (w : World) (code refresh : String) :
    formOf w code refresh = none ↔ code = "" ∧ refresh = "" := by
  unfold formOf postData
  by_cases hc : code = "" <;> by_cases hr : refresh = "" <;> simp [hc, hr]

/-- Every listed way of failing makes `handleAuth` return a non-nil error. -/
theorem AuthFailure.returns_err {w : World} {code refresh : String}
    (h : AuthFailure w code refresh) : ∃ msg, (handleAuth w code refresh).1 = .err msg := by
  cases h with
  | noGrant hcode hrefresh =>
    rw [handleAuth_no_form w code refresh ((formOf_none_iff w code refresh).mpr ⟨hcode, hrefresh⟩)]
    exact ⟨_, rfl⟩
  | transport form e hform hpost =>
    rw [handleAuth_post_error w code refresh form e hform hpost]
    exact ⟨_, rfl⟩
  | rejected form resp hform hpost hst =>
    rw [handleAuth_status_rejected w code refresh form resp hform hpost hst]
    exact ⟨_, rfl⟩
  | undecodable form resp hform hpost hst hdec =>
    rw [handleAuth_undecodable w code refresh form resp hform hpost hst hdec]
    exact ⟨_, rfl⟩
  | keyFetch form resp token e hform hpost hst hdec hkeys =>
    rw [handleAuth_decoded w code refresh form resp token hform hpost hst hdec]
    rcases hk : getPublicKeys w with ⟨r, ks⟩
    rw [hk] at hkeys
    dsimp only at hkeys
    subst hkeys
    exact ⟨_, rfl⟩
  | verification token keys e hreach hparse =>
    obtain ⟨tr, htr⟩ := handleAuth_reaches w code refresh token keys hreach
    rw [htr, hparse]
    exact ⟨_, rfl⟩
  | missingUsername token keys parsed hreach hparse hname =>
    obtain ⟨tr, htr⟩ := handleAuth_reaches w code refresh token keys hreach
    rw [htr, hparse]
    dsimp only
    rw [hname]
    exact ⟨_, rfl⟩

/-- Whenever a form is built, the first call `handleAuth` makes is the POST of that
form to the token endpoint. -/
theorem handleAuth_first_call (w : World) (code refresh : String) (form : Values)
    (hform : formOf w code refresh = some form) :
    (handleAuth w code refresh).2.head? = some (.post (endpointOf w) form) := by
  cases hpost : w.postForm (endpointOf w) form with
  | error e => rw [handleAuth_post_error w code refresh form e hform hpost]; rfl
  | ok resp =>
    by_cases hst : resp.StatusCode ≥ 400
    · rw [handleAuth_status_rejected w code refresh form resp hform hpost hst]; rfl
    · have hst' : resp.StatusCode < 400 := not_le.mp hst
      cases hdec : decodeToken w resp.Body with
      | none => rw [handleAuth_undecodable w code refresh form resp hform hpost hst' hdec]; rfl
      | some token =>
        rw [handleAuth_decoded w code refresh form resp token hform hpost hst' hdec]
        rcases getPublicKeys w with ⟨r, ks⟩
        cases r with
        | err e => rfl
        | panic e => rfl
        | ok keys =>
          dsimp only
          cases w.jwtParse token.AccessToken keys with
          | error e => rfl
          | ok parsed =>
            dsimp only
            cases parsed.Get "username" with
            | none => rfl
            | some u =>
              dsimp only
              cases assertString u with
              | none => rfl
              | some u =>
                dsimp only
                cases w.writeJSON _ <;> rfl

/-- What a successful run of `handleAuth` went through. -/
theorem handleAuth_ok_inv (w : World) (code refresh body : String)
    (h : (handleAuth w code refresh).1 = .ok body) :
    ∃ form resp token iss keys parsed u,
      formOf w code refresh = some form ∧
      w.postForm (endpointOf w) form = .ok resp ∧ resp.StatusCode < 400 ∧
      decodeToken w resp.Body = some token ∧
      getCognitoIssuer w = .ok iss ∧
      w.jwkFetch (iss ++ "/.well-known/jwks.json") = .ok keys ∧
      getPublicKeys w = (.ok keys, [.fetch (iss ++ "/.well-known/jwks.json")]) ∧
      w.jwtParse token.AccessToken keys = .ok parsed ∧
      parsed.Get "username" = some (.str u) ∧
      w.writeJSON (retvalJson
        { IDToken := token.IDToken, RefreshToken := token.RefreshToken,
          Username := TrimPrefix u "AmazonFederate_", ExpiresIn := token.ExpiresIn }) = .ok body ∧
      (handleAuth w code refresh).2 =
        [.post (endpointOf w) form, .decode resp.Body,
         .fetch (iss ++ "/.well-known/jwks.json"), .parse token.AccessToken keys] := by
  cases hform : formOf w code refresh with
  | none => rw [handleAuth_no_form w code refresh hform] at h; cases h
  | some form =>
  cases hpost : w.postForm (endpointOf w) form with
  | error e => rw [handleAuth_post_error w code refresh form e hform hpost] at h; cases h
  | ok resp =>
  by_cases hst : resp.StatusCode ≥ 400
  · rw [handleAuth_status_rejected w code refresh form resp hform hpost hst] at h; cases h
  · have hst' : resp.StatusCode < 400 := not_le.mp hst
    cases hdec : decodeToken w resp.Body with
    | none =>
      rw [handleAuth_undecodable w code refresh form resp hform hpost hst' hdec] at h; cases h
    | some token =>
    have hrun := handleAuth_decoded w code refresh form resp token hform hpost hst' hdec
    rw [hrun] at h
    rcases getPublicKeys_cases w with ⟨e, hk, _⟩ | ⟨iss, e, _, hk⟩ | ⟨iss, keys, hiss, hfetch, hk⟩
    · rw [hk] at h; cases h
    · rw [hk] at h; cases h
    · rw [hk] at h hrun
      dsimp only at h hrun
      cases hparse : w.jwtParse token.AccessToken keys with
      | error e => rw [hparse] at h; cases h
      | ok parsed =>
      rw [hparse] at h hrun
      dsimp only at h hrun
      cases hname : parsed.Get "username" with
      | none => rw [hname] at h; cases h
      | some v =>
      rw [hname] at h hrun
      dsimp only at h hrun
      cases hv : assertString v with
      | none => rw [hv] at h; cases h
      | some u =>
      rw [hv] at h hrun
      dsimp only at h hrun
      have hvu : v = .str u := by
        cases v <;> simp [assertString] at hv
        rw [hv]
      subst hvu
      cases hw : w.writeJSON (retvalJson
        { IDToken := token.IDToken, RefreshToken := token.RefreshToken,
          Username := TrimPrefix u "AmazonFederate_", ExpiresIn := token.ExpiresIn }) with
      | error e => rw [hw] at h; cases h
      | ok out =>
      rw [hw] at h hrun
      dsimp only at h hrun
      cases h
      refine ⟨form, resp, token, iss, keys, parsed, u, rfl, hpost, hst', hdec, hiss, hfetch,
        hk, hparse, hname, hw, ?_⟩
      rw [hrun]
      rfl

theorem TrimPrefix_append (p rest : String) : TrimPrefix (p ++ rest) p = rest := by
  have hpre : HasPrefix (p ++ rest) p = true := by
    unfold HasPrefix
    rw [String.data_append, List.isPrefixOf_iff_prefix]
    exact List.prefix_append _ _
  unfold TrimPrefix
  rw [if_pos hpre, String.data_append, List.drop_left]

theorem TrimPrefix_of_no_prefix (u p : String) (h : ∀ rest, u ≠ p ++ rest) :
    TrimPrefix u p = u := by
  have hpre : ¬ HasPrefix u p = true := by
    unfold HasPrefix
    rw [List.isPrefixOf_iff_prefix]
    rintro ⟨t, ht⟩
    apply h ⟨t⟩
    apply String.ext
    rw [String.data_append, ht]
  unfold TrimPrefix
  rw [if_neg hpre]

/-! ### Decoding the token response -/

theorem storeField_null (t : Token) (f : TokenField) : storeField t f .null = some t := by
  cases f <;> rfl

theorem storeField_same (t t' : Token) (f : TokenField) (v : Json)
    (h : storeField t f v = some t') (hv : v ≠ .null) : t'.get f = v := by
  cases f <;> cases v <;> simp [storeField] at h hv ⊢
  all_goals first
    | (subst h; rfl)
    | (obtain ⟨_, h⟩ := h; subst h; rfl)

theorem storeField_other (t t' : Token) (f g : TokenField) (v : Json)
    (h : storeField t g v = some t') (hfg : g ≠ f) : t'.get f = t.get f := by
  cases g <;> cases v <;> simp [storeField] at h
  all_goals first
    | (subst h; rfl)
    | (subst h; cases f <;> first | rfl | exact absurd rfl hfg)
    | (obtain ⟨_, h⟩ := h; subst h; cases f <;> first | rfl | exact absurd rfl hfg)

/-- A field keeps its value when every member decoded into it is `null` or carries
that same value. -/
theorem decodeMembers_keep (fold : String → String) (f : TokenField) :
    ∀ (ms : List (String × Json)) (t t' : Token), decodeMembers fold t ms = some t' →
      (∀ k v, (k, v) ∈ ms → fieldOfKey fold k = some f → v = .null ∨ v = t.get f) →
      t'.get f = t.get f := by
  intro ms
  induction ms with
  | nil =>
    intro t t' h _
    simp only [decodeMembers, Option.some.injEq] at h
    rw [h]
  | cons m ms ih =>
    obtain ⟨k, v⟩ := m
    intro t t' h hall
    have hrest : ∀ k' v', (k', v') ∈ ms → fieldOfKey fold k' = some f →
        v' = .null ∨ v' = t.get f :=
      fun k' v' hm hf => hall k' v' (List.mem_cons_of_mem _ hm) hf
    unfold decodeMembers at h
    cases hk : fieldOfKey fold k with
    | none =>
      rw [hk] at h
      exact ih t t' h hrest
    | some g =>
      rw [hk] at h
      dsimp only at h
      cases hs : storeField t g v with
      | none => rw [hs] at h; cases h
      | some t1 =>
        rw [hs] at h
        dsimp only at h
        have h1 : t1.get f = t.get f := by
          by_cases hgf : g = f
          · subst hgf
            rcases hall k v (List.mem_cons_self _ _) hk with hv | hv
            · subst hv
              rw [storeField_null] at hs
              cases hs
              rfl
            · by_cases hnull : v = .null
              · subst hnull
                rw [storeField_null] at hs
                cases hs
                rfl
              · rw [storeField_same t t1 g v hs hnull, hv]
          · exact storeField_other t t1 f g v hs hgf
        rw [ih t1 t' h (by rw [h1]; exact hrest), h1]

/-- A field ends with the value `v` when some member decoded into it carries `v` and
every member decoded into it is `null` or carries `v`. -/
theorem decodeMembers_value (fold : String → String) (f : TokenField) (k : String) (v : Json)
    (hk : fieldOfKey fold k = some f) (hv : v ≠ .null) :
    ∀ (ms : List (String × Json)) (t t' : Token), decodeMembers fold t ms = some t' →
      (k, v) ∈ ms →
      (∀ k' v', (k', v') ∈ ms → fieldOfKey fold k' = some f → v' = .null ∨ v' = v) →
      t'.get f = v := by
  intro ms
  induction ms with
  | nil => intro t t' _ hmem; cases hmem
  | cons m ms ih =>
    obtain ⟨k1, v1⟩ := m
    intro t t' h hmem hall
    have hrest : ∀ k' v', (k', v') ∈ ms → fieldOfKey fold k' = some f →
        v' = .null ∨ v' = v :=
      fun k' v' hm hf => hall k' v' (List.mem_cons_of_mem _ hm) hf
    unfold decodeMembers at h
    by_cases hhead : (k, v) = (k1, v1)
    · cases hhead
      rw [hk] at h
      dsimp only at h
      cases hs : storeField t f v with
      | none => rw [hs] at h; cases h
      | some t1 =>
        rw [hs] at h
        dsimp only at h
        have h1 : t1.get f = v := storeField_same t t1 f v hs hv
        rw [decodeMembers_keep fold f ms t1 t' h (by rw [h1]; exact hrest), h1]
    · have hmem' : (k, v) ∈ ms := by
        rcases List.mem_cons.mp hmem with h0 | h0
        · exact absurd h0 hhead
        · exact h0
      cases hk1 : fieldOfKey fold k1 with
      | none =>
        rw [hk1] at h
        exact ih t t' h hmem' hrest
      | some g =>
        rw [hk1] at h
        dsimp only at h
        cases hs : storeField t g v1 with
        | none => rw [hs] at h; cases h
        | some t1 =>
          rw [hs] at h
          exact ih t1 t' h hmem' hrest

/-- A key equal to a field's tag is decoded into that field, whatever the folding. -/
theorem fieldOfKey_tag (fold : String → String) (f : TokenField) :
    fieldOfKey fold f.tag = some f := by
  cases f <;> rfl

theorem getCognitoIssuer_missing (w : World)
    (h : w.getenv "COGNITO_REGION" = "" ∨ w.getenv "COGNITO_POOL_ID" = "") :
    ∃ msg, getCognitoIssuer w = .err msg := by
  unfold getCognitoIssuer
  dsimp only
  by_cases hr : w.getenv "COGNITO_REGION" = ""
  · rw [if_pos hr]
    exact ⟨_, rfl⟩
  · rw [if_neg hr]
    rcases h with h | h
    · exact absurd h hr
    · rw [if_pos h]
      exact ⟨_, rfl⟩

/-- Without a region or a pool identifier `handleAuth` returns an error, and its
calls are at most the POST and the decoding of its answer. -/
theorem handleAuth_missing_issuer (w : World) (code refresh : String)
    (h : w.getenv "COGNITO_REGION" = "" ∨ w.getenv "COGNITO_POOL_ID" = "") :
    (∃ msg, (handleAuth w code refresh).1 = .err msg) ∧
    ∀ e ∈ (handleAuth w code refresh).2,
      (∃ url form, e = .post url form) ∨ (∃ body, e = .decode body) := by
  cases hform : formOf w code refresh with
  | none =>
    rw [handleAuth_no_form w code refresh hform]
    exact ⟨⟨_, rfl⟩, fun e he => by cases he⟩
  | some form =>
  cases hpost : w.postForm (endpointOf w) form with
  | error e =>
    rw [handleAuth_post_error w code refresh form e hform hpost]
    refine ⟨⟨_, rfl⟩, fun e he => ?_⟩
    simp only [List.mem_singleton] at he
    exact Or.inl ⟨_, _, he⟩
  | ok resp =>
  by_cases hst : resp.StatusCode ≥ 400
  · rw [handleAuth_status_rejected w code refresh form resp hform hpost hst]
    refine ⟨⟨_, rfl⟩, fun e he => ?_⟩
    simp only [List.mem_singleton] at he
    exact Or.inl ⟨_, _, he⟩
  · have hst' : resp.StatusCode < 400 := not_le.mp hst
    have htwo : ∀ e ∈ [Event.post (endpointOf w) form, Event.decode resp.Body],
        (∃ url form, e = .post url form) ∨ (∃ body, e = .decode body) := by
      intro e he
      simp only [List.mem_cons, List.mem_singleton, List.not_mem_nil, or_false] at he
      rcases he with he | he
      · exact Or.inl ⟨_, _, he⟩
      · exact Or.inr ⟨_, he⟩
    cases hdec : decodeToken w resp.Body with
    | none =>
      rw [handleAuth_undecodable w code refresh form resp hform hpost hst' hdec]
      exact ⟨⟨_, rfl⟩, htwo⟩
    | some token =>
      rw [handleAuth_decoded w code refresh form resp token hform hpost hst' hdec]
      obtain ⟨msg, hmsg⟩ := getCognitoIssuer_missing w h
      rcases getPublicKeys_cases w with ⟨e, hk, _⟩ | ⟨iss, e, hiss, _⟩ | ⟨iss, keys, hiss, _, _⟩
      · rw [hk]
        exact ⟨⟨_, rfl⟩, by simp only [List.append_nil]; exact htwo⟩
      · rw [hiss] at hmsg; cases hmsg
      · rw [hiss] at hmsg; cases hmsg

/-- On a `GET`, the calls of `HandleRequest` are those of `handleAuth`. -/
theorem HandleRequest_get_trace (w : World) (request : APIGatewayProxyRequest)
    (hget : request.HTTPMethod = "GET") :
    (HandleRequest w request).2 =
      (handleAuth w (request.QueryStringParameters.get "code")
        (request.QueryStringParameters.get "refresh")).2 := by
  simp only [HandleRequest, hget, if_true]
  rcases handleAuth w (request.QueryStringParameters.get "code")
      (request.QueryStringParameters.get "refresh") with ⟨r, tr⟩
  cases r <;> rfl

/-! ### The `%d` rendering -/

theorem fmtInt_ofNat (m : Nat) : fmtInt (m : Int) = ⟨Nat.toDigits 10 m⟩ := rfl

theorem digitChar_value (k : Nat) (hk : k < 10) :
    (Nat.digitChar k).toNat - '0'.toNat = k ∧ (Nat.digitChar k).isDigit = true := by
  interval_cases k <;> decide

theorem toDigitsCore_value (fuel : Nat) :
    ∀ (n : Nat) (ds : List Char), n < fuel →
      (Nat.toDigitsCore 10 fuel n ds).foldl (fun a c => 10 * a + (c.toNat - '0'.toNat)) 0 =
        ds.foldl (fun a c => 10 * a + (c.toNat - '0'.toNat)) n := by
  induction fuel with
  | zero => intro n ds h; omega
  | succ fuel ih =>
    intro n ds h
    have hd := (digitChar_value (n % 10) (Nat.mod_lt _ (by decide))).1
    unfold Nat.toDigitsCore
    dsimp only
    by_cases h0 : n / 10 = 0
    · rw [if_pos h0]
      have hn : n % 10 = n := Nat.mod_eq_of_lt (by omega)
      rw [hn] at hd
      simp only [List.foldl_cons, hn, hd, Nat.mul_zero, Nat.zero_add]
    · rw [if_neg h0, ih (n / 10) _ (by omega)]
      simp only [List.foldl_cons, hd]
      congr 1
      omega

theorem toDigitsCore_isDigit (fuel : Nat) :
    ∀ (n : Nat) (ds : List Char), (∀ c ∈ ds, c.isDigit = true) →
      ∀ c ∈ Nat.toDigitsCore 10 fuel n ds, c.isDigit = true := by
  induction fuel with
  | zero => intro n ds h; exact h
  | succ fuel ih =>
    intro n ds h
    have hd := (digitChar_value (n % 10) (Nat.mod_lt _ (by decide))).2
    have hcons : ∀ c ∈ Nat.digitChar (n % 10) :: ds, c.isDigit = true := by
      intro c hc
      rcases List.mem_cons.mp hc with hc | hc
      · rw [hc]; exact hd
      · exact h c hc
    unfold Nat.toDigitsCore
    dsimp only
    by_cases h0 : n / 10 = 0
    · rw [if_pos h0]; exact hcons
    · rw [if_neg h0]; exact ih (n / 10) _ hcons

/-- The rendering of a non-negative `int` is its decimal numeral: decimal digits
only, denoting the number, and no longer than the number needs. -/
theorem fmtInt_decimal (n : Int) (hn : 0 ≤ n) :
    ∃ digits, fmtInt n = ⟨digits⟩ ∧ (∀ c ∈ digits, c.isDigit = true) ∧
      (decimalValue digits : Int) = n ∧
      (∀ e : Nat, 0 < e → n < 10 ^ e → digits.length ≤ e) := by
  obtain ⟨m, rfl⟩ := Int.eq_ofNat_of_zero_le hn
  refine ⟨Nat.toDigits 10 m, fmtInt_ofNat m, ?_, ?_, ?_⟩
  · exact toDigitsCore_isDigit (m + 1) m [] (fun c hc => by cases hc)
  · have h := toDigitsCore_value (m + 1) m [] (Nat.lt_succ_self m)
    unfold decimalValue Nat.toDigits
    rw [h]
    rfl
  · intro e he hlt
    have hlt' : m < 10 ^ e := by exact_mod_cast hlt
    exact Nat.repr_length m e he hlt'

/-! ## C1 -/

/-- C1: for every GET request whose `handleAuth` call fails, in any of the listed
ways or with any other non-nil error whatever its message, `HandleRequest`
returns `(Fail(401, "Auth Failure"), nil)`: status 401, body
`{"message": "Auth Failure"}` and header `X-Rain-Webapp-Error: Auth Failure`.  The
response is one constant, so it does not depend on the error kind, the
provider status or the message. -/
theorem HandleRequest_auth_failure_uniform (w : World) (request : APIGatewayProxyRequest)
    (hget : request.HTTPMethod = "GET")
    (hfail : AuthFailure w (request.QueryStringParameters.get "code")
        (request.QueryStringParameters.get "refresh") ∨
      ∃ msg, (handleAuth w (request.QueryStringParameters.get "code")
        (request.QueryStringParameters.get "refresh")).1 = .err msg) :
    (HandleRequest w request).1 = .ok (Fail 401 "Auth Failure") ∧
    (Fail 401 "Auth Failure").StatusCode = 401 ∧
    (Fail 401 "Auth Failure").Body = "\x7b\"message\": \"Auth Failure\"\x7d" ∧
    (Fail 401 "Auth Failure").Headers.get "X-Rain-Webapp-Error" = "Auth Failure" := by
  have herr : ∃ msg, (handleAuth w (request.QueryStringParameters.get "code")
      (request.QueryStringParameters.get "refresh")).1 = .err msg := by
    rcases hfail with h | h
    · exact h.returns_err
    · exact h
  obtain ⟨msg, hmsg⟩ := herr
  refine ⟨?_, by decide, by decide, by decide⟩
  rcases hr : handleAuth w (request.QueryStringParameters.get "code")
      (request.QueryStringParameters.get "refresh") with ⟨r, tr⟩
  rw [hr] at hmsg
  dsimp only at hmsg
  subst hmsg
  simp only [HandleRequest, hget, if_true, hr]

/-- C1 at a concrete run: the token endpoint is unreachable. -/
theorem HandleRequest_auth_failure_uniform_witness :
    (HandleRequest (unreachableWorld sampleEnv) (getRequest [("code", "abc")])).1 =
        .ok (Fail 401 "Auth Failure") ∧
    (Fail 401 "Auth Failure").StatusCode = 401 ∧
    (Fail 401 "Auth Failure").Body = "\x7b\"message\": \"Auth Failure\"\x7d" ∧
    (Fail 401 "Auth Failure").Headers.get "X-Rain-Webapp-Error" = "Auth Failure" :=
  HandleRequest_auth_failure_uniform (unreachableWorld sampleEnv) (getRequest [("code", "abc")])
    (by decide)
    (Or.inl (AuthFailure.transport
      [("grant_type", ["authorization_code"]), ("client_id", ["client1"]),
       ("code", ["abc"]), ("redirect_uri", ["https://app.example.com/cb"])]
      "dial tcp: connection refused" (by decide) rfl))

/-! ## C2 -/

/-- C2: with neither a code nor a refresh token, `handleAuth` returns the error
"no refresh token" and makes no call at all (no token-endpoint POST, no JWKS
fetch), in every world; the result is the same whatever the environment and
the oracles are. -/
theorem handleAuth_no_grant_no_network (w : World) :
    handleAuth w "" "" = (.err "no refresh token", []) ∧
    ∀ w' : World, handleAuth w' "" "" = handleAuth w "" "" := by
  have h : ∀ v : World, handleAuth v "" "" = (.err "no refresh token", []) := fun v =>
    handleAuth_no_form v "" "" ((formOf_none_iff v "" "").mpr ⟨rfl, rfl⟩)
  exact ⟨h w, fun w' => by rw [h w', h w]⟩

/-! ## C7 -/

/-- C7: when the token endpoint answers with a status `s ≥ 400`, whatever the body
is, `handleAuth` returns the error "request to <endpoint> failed with Status "
followed by the decimal numeral of `s` (decimal digits only, denoting `s`, and
no longer than `s` needs), and the POST is the only call of the run: the body
is not decoded, no JWKS fetch and no token verification follow. -/
theorem handleAuth_rejected_status (w : World) (code refresh : String) (form : Values)
    (resp : HttpResponse)
    (hform : formOf w code refresh = some form)
    (hpost : w.postForm (endpointOf w) form = .ok resp)
    (hst : resp.StatusCode ≥ 400) :
    (∃ digits : List Char,
      (handleAuth w code refresh).1 =
        .err ("request to " ++ endpointOf w ++ " failed with Status " ++ ⟨digits⟩) ∧
      (∀ c ∈ digits, c.isDigit = true) ∧
      (decimalValue digits : Int) = resp.StatusCode ∧
      (∀ e : Nat, 0 < e → resp.StatusCode < 10 ^ e → digits.length ≤ e)) ∧
    (∃ msg pre, (handleAuth w code refresh).1 = .err msg ∧
      msg = pre ++ fmtInt resp.StatusCode) ∧
    (handleAuth w code refresh).2 = [.post (endpointOf w) form] ∧
    (∀ body, .decode body ∉ (handleAuth w code refresh).2) ∧
    (∀ url, .fetch url ∉ (handleAuth w code refresh).2) ∧
    (∀ tok keys, .parse tok keys ∉ (handleAuth w code refresh).2) := by
  rw [handleAuth_status_rejected w code refresh form resp hform hpost hst]
  obtain ⟨digits, hdigits, hall, hval, hlen⟩ :=
    fmtInt_decimal resp.StatusCode (le_trans (by decide) hst)
  refine ⟨⟨digits, ?_, hall, hval, hlen⟩, ⟨_, _, rfl, rfl⟩, rfl, ?_, ?_, ?_⟩
  · rw [hdigits]
  · intro body hmem
    simp at hmem
  · intro url hmem
    simp at hmem
  · intro tok keys hmem
    simp at hmem

/-- C7 at a concrete run: a refresh grant answered with status 400. -/
theorem handleAuth_rejected_status_witness :
    (handleAuth (answeringWorld sampleEnv ⟨400, "\x7b\"error\":\"invalid_grant\"\x7d"⟩) "" "xyz").1 =
      .err "request to https://my-app.auth.us-east-1.amazoncognito.com/oauth2/token failed with Status 400" ∧
    decimalValue ['4', '0', '0'] = 400 ∧
    (handleAuth (answeringWorld sampleEnv ⟨400, "\x7b\"error\":\"invalid_grant\"\x7d"⟩) "" "xyz").2 =
      [.post "https://my-app.auth.us-east-1.amazoncognito.com/oauth2/token"
        [("grant_type", ["refresh_token"]), ("client_id", ["client1"]),
         ("refresh_token", ["xyz"])]] := by
  have h := handleAuth_rejected_status
    (answeringWorld sampleEnv ⟨400, "\x7b\"error\":\"invalid_grant\"\x7d"⟩) "" "xyz"
    [("grant_type", ["refresh_token"]), ("client_id", ["client1"]), ("refresh_token", ["xyz"])]
    ⟨400, "\x7b\"error\":\"invalid_grant\"\x7d"⟩ (by decide) rfl (by decide)
  refine ⟨by decide, by decide, ?_⟩
  rw [h.2.2.1]
  decide

/-! ## C8 -/

/-- C8: the posted form follows the populated parameter.  A non-empty `code`, with
any `refresh`, gives exactly `grant_type=authorization_code`, `client_id`, `code`
and `redirect_uri`, with the request's code and no `refresh_token` key; an
empty `code` with a non-empty `refresh` gives exactly `grant_type=refresh_token`,
`client_id` and `refresh_token`, with the request's refresh value and no `code`
or `redirect_uri` key.  That form is what `handleAuth` posts, as its first
call. -/
theorem handleAuth_form_by_grant (w : World) (code refresh : String) :
    (code ≠ "" →
      formOf w code refresh =
        some [("grant_type", ["authorization_code"]),
              ("client_id", [w.getenv "COGNITO_APP_CLIENT_ID"]),
              ("code", [code]),
              ("redirect_uri", [w.getenv "COGNITO_REDIRECT_URI"])]) ∧
    (code = "" → refresh ≠ "" →
      formOf w code refresh =
        some [("grant_type", ["refresh_token"]),
              ("client_id", [w.getenv "COGNITO_APP_CLIENT_ID"]),
              ("refresh_token", [refresh])]) ∧
    (∀ form, formOf w code refresh = some form →
      (handleAuth w code refresh).2.head? = some (.post (endpointOf w) form) ∧
      (code ≠ "" →
        form.map Prod.fst = ["grant_type", "client_id", "code", "redirect_uri"] ∧
        form.lookup "grant_type" = some ["authorization_code"] ∧
        form.lookup "code" = some [code] ∧
        form.lookup "refresh_token" = none) ∧
      (code = "" →
        form.map Prod.fst = ["grant_type", "client_id", "refresh_token"] ∧
        form.lookup "grant_type" = some ["refresh_token"] ∧
        form.lookup "refresh_token" = some [refresh] ∧
        form.lookup "code" = none ∧ form.lookup "redirect_uri" = none)) := by
  have h1 : code ≠ "" → formOf w code refresh =
        some [("grant_type", ["authorization_code"]),
              ("client_id", [w.getenv "COGNITO_APP_CLIENT_ID"]),
              ("code", [code]),
              ("redirect_uri", [w.getenv "COGNITO_REDIRECT_URI"])] := by
    intro hc
    simp [formOf, postData, hc]
  have h2 : code = "" → refresh ≠ "" → formOf w code refresh =
        some [("grant_type", ["refresh_token"]),
              ("client_id", [w.getenv "COGNITO_APP_CLIENT_ID"]),
              ("refresh_token", [refresh])] := by
    intro hc hr
    simp [formOf, postData, hc, hr]
  refine ⟨h1, h2, ?_⟩
  intro form hform
  refine ⟨handleAuth_first_call w code refresh form hform, ?_, ?_⟩
  · intro hc
    rw [h1 hc] at hform
    cases hform
    refine ⟨rfl, ?_, ?_, ?_⟩ <;> simp [List.lookup]
  · intro hc
    have hr : refresh ≠ "" := by
      intro hr
      rw [(formOf_none_iff w code refresh).mpr ⟨hc, hr⟩] at hform
      cases hform
    rw [h2 hc hr] at hform
    cases hform
    refine ⟨rfl, ?_, ?_, ?_, ?_⟩ <;> simp [List.lookup]

/-- C8 at a concrete run: both parameters populated, the code wins. -/
theorem handleAuth_form_by_grant_witness :
    formOf (unreachableWorld sampleEnv) "abc" "xyz" =
      some [("grant_type", ["authorization_code"]), ("client_id", ["client1"]),
            ("code", ["abc"]), ("redirect_uri", ["https://app.example.com/cb"])] ∧
    formOf (unreachableWorld sampleEnv) "" "xyz" =
      some [("grant_type", ["refresh_token"]), ("client_id", ["client1"]),
            ("refresh_token", ["xyz"])] :=
  ⟨(handleAuth_form_by_grant (unreachableWorld sampleEnv) "abc" "xyz").1 (by decide),
   (handleAuth_form_by_grant (unreachableWorld sampleEnv) "" "xyz").2.1 rfl (by decide)⟩

/-! ## C9 -/

/-- C9: the token endpoint URL is
`"https://" + p' + ".auth." + r + ".amazoncognito.com/oauth2/token"`, where `p'` is
the domain prefix `p` with every `.` replaced by `-`: `p'` has no `.`, has the
length of `p`, agrees with `p` wherever `p` is not `.` and is `-` wherever `p` is
`.`.  Two worlds with the same prefix and region have the same URL, and this
URL is the one `handleAuth` posts to. -/
theorem tokenEndpoint_from_prefix_and_region (w : World) :
    endpointOf w =
      "https://" ++ ReplaceAll (w.getenv "COGNITO_DOMAIN_PREFIX") "." "-" ++ ".auth." ++
        w.getenv "COGNITO_REGION" ++ ".amazoncognito.com/oauth2/token" ∧
    '.' ∉ (ReplaceAll (w.getenv "COGNITO_DOMAIN_PREFIX") "." "-").data ∧
    (ReplaceAll (w.getenv "COGNITO_DOMAIN_PREFIX") "." "-").length =
      (w.getenv "COGNITO_DOMAIN_PREFIX").length ∧
    (∀ (i : Nat) (c : Char), (w.getenv "COGNITO_DOMAIN_PREFIX").data[i]? = some c →
      (ReplaceAll (w.getenv "COGNITO_DOMAIN_PREFIX") "." "-").data[i]? =
        some (if c = '.' then '-' else c)) ∧
    (∀ w' : World, w'.getenv "COGNITO_DOMAIN_PREFIX" = w.getenv "COGNITO_DOMAIN_PREFIX" →
      w'.getenv "COGNITO_REGION" = w.getenv "COGNITO_REGION" → endpointOf w' = endpointOf w) ∧
    (∀ code refresh form, formOf w code refresh = some form →
      (handleAuth w code refresh).2.head? = some (.post (endpointOf w) form)) := by
  refine ⟨rfl, ?_, ?_, ?_, ?_, ?_⟩
  · rw [ReplaceAll_dot]
    intro hmem
    obtain ⟨c, _, hc⟩ := List.mem_map.mp hmem
    by_cases h : c = '.'
    · rw [if_pos h] at hc
      exact absurd hc (by decide)
    · rw [if_neg h] at hc
      exact h hc
  · show (ReplaceAll (w.getenv "COGNITO_DOMAIN_PREFIX") "." "-").data.length = _
    rw [ReplaceAll_dot, List.length_map]
    rfl
  · intro i c hi
    rw [ReplaceAll_dot, List.getElem?_map, hi]
    rfl
  · intro w' hp hr
    unfold endpointOf
    rw [hp, hr]
  · intro code refresh form hform
    exact handleAuth_first_call w code refresh form hform

/-- C9 at a concrete run: the prefix `my.app` in region `us-east-1`. -/
theorem tokenEndpoint_from_prefix_and_region_witness :
    (handleAuth (unreachableWorld sampleEnv) "abc" "").2.head? =
      some (.post "https://my-app.auth.us-east-1.amazoncognito.com/oauth2/token"
        [("grant_type", ["authorization_code"]), ("client_id", ["client1"]),
         ("code", ["abc"]), ("redirect_uri", ["https://app.example.com/cb"])]) :=
  (tokenEndpoint_from_prefix_and_region (unreachableWorld sampleEnv)).2.2.2.2.2 "abc" ""
    [("grant_type", ["authorization_code"]), ("client_id", ["client1"]),
     ("code", ["abc"]), ("redirect_uri", ["https://app.example.com/cb"])] (by decide)

/-! ## C3 -/

/-- C3: `handleAuth` returns a payload with a nil error only when every upstream
check passed: a form was posted, the token endpoint answered below 400 with a
body that decodes, the issuer URL was built and the key set fetched,
`jwt.Parse` of the access token against that key set succeeded and the parsed
token has a `username` claim.  In a run that reaches `jwt.Parse`, an error from
`jwt.Parse` makes `handleAuth` return the error "failed to verify token", and
a parsed token without a `username` claim makes it return "missing username";
in both cases no payload is returned. -/
theorem handleAuth_payload_only_after_all_checks (w : World) (code refresh : String) :
    (∀ body, (handleAuth w code refresh).1 = .ok body →
      ∃ form resp token iss keys parsed userName,
        formOf w code refresh = some form ∧
        w.postForm (endpointOf w) form = .ok resp ∧ resp.StatusCode < 400 ∧
        decodeToken w resp.Body = some token ∧
        getCognitoIssuer w = .ok iss ∧
        w.jwkFetch (iss ++ "/.well-known/jwks.json") = .ok keys ∧
        (getPublicKeys w).1 = .ok keys ∧
        w.jwtParse token.AccessToken keys = .ok parsed ∧
        parsed.Get "username" = some userName) ∧
    (∀ token keys e, ReachesParse w code refresh token keys →
      w.jwtParse token.AccessToken keys = .error e →
      (handleAuth w code refresh).1 = .err "failed to verify token") ∧
    (∀ token keys parsed, ReachesParse w code refresh token keys →
      w.jwtParse token.AccessToken keys = .ok parsed →
      parsed.Get "username" = none →
      (handleAuth w code refresh).1 = .err "missing username") := by
  refine ⟨?_, ?_, ?_⟩
  · intro body h
    obtain ⟨form, resp, token, iss, keys, parsed, u, hform, hpost, hst, hdec, hiss, hfetch, hk,
      hparse, hname, _, _⟩ := handleAuth_ok_inv w code refresh body h
    exact ⟨form, resp, token, iss, keys, parsed, .str u, hform, hpost, hst, hdec, hiss, hfetch,
      by rw [hk], hparse, hname⟩
  · intro token keys e hreach hparse
    obtain ⟨tr, htr⟩ := handleAuth_reaches w code refresh token keys hreach
    rw [htr, hparse]
  · intro token keys parsed hreach hparse hname
    obtain ⟨tr, htr⟩ := handleAuth_reaches w code refresh token keys hreach
    rw [htr, hparse]
    dsimp only
    rw [hname]

/-- C3 at a concrete run: the exchange succeeds and the token verifies, but it has
no `username` claim (it has a `sub` claim only). -/
theorem handleAuth_payload_only_after_all_checks_witness :
    ReachesParse (happyWorld sampleEnv sampleTokenJson [("sub", .str "jdoe")]) "abc" ""
      ⟨"AT", "IT", "RT", 3600⟩ [("kid1", "key1")] ∧
    (handleAuth (happyWorld sampleEnv sampleTokenJson [("sub", .str "jdoe")]) "abc" "").1 =
      .err "missing username" := by
  have hreach : ReachesParse (happyWorld sampleEnv sampleTokenJson [("sub", .str "jdoe")]) "abc" ""
      ⟨"AT", "IT", "RT", 3600⟩ [("kid1", "key1")] :=
    ⟨[("grant_type", ["authorization_code"]), ("client_id", ["client1"]),
      ("code", ["abc"]), ("redirect_uri", ["https://app.example.com/cb"])],
     ⟨200, "body"⟩, by decide, rfl, by decide, by decide, by decide⟩
  exact ⟨hreach,
    (handleAuth_payload_only_after_all_checks
      (happyWorld sampleEnv sampleTokenJson [("sub", .str "jdoe")]) "abc" "").2.2
      ⟨"AT", "IT", "RT", 3600⟩ [("kid1", "key1")] ⟨[("sub", .str "jdoe")]⟩ hreach rfl rfl⟩

/-! ## C4 -/

/-- C4: in a run that reaches the payload with a `username` claim that is the string
`u`, the payload is the marshalled `retval` whose `Username` is
`TrimPrefix(u, "AmazonFederate_")`: when `u` is `"AmazonFederate_" + rest` it is
`rest` (one leading occurrence is removed, also when `rest` starts with the
prefix again), and when `u` does not start with the prefix it is `u`.
`"AmazonFederate_jdoe"` yields `"jdoe"` and `"jdoe"` yields `"jdoe"`. -/
theorem handleAuth_username_prefix_stripped (w : World) (code refresh : String)
    (token : Token) (keys : KeySet) (parsed : JwtToken) (u : String)
    (hreach : ReachesParse w code refresh token keys)
    (hparse : w.jwtParse token.AccessToken keys = .ok parsed)
    (hname : parsed.Get "username" = some (.str u)) :
    (handleAuth w code refresh).1 =
      (match w.writeJSON (.obj [("idToken", .str token.IDToken),
          ("refreshToken", .str token.RefreshToken),
          ("username", .str (TrimPrefix u "AmazonFederate_")),
          ("expiresIn", .int token.ExpiresIn)]) with
        | .error _ => .err "failed to encode response"
        | .ok jsonData => .ok jsonData) ∧
    (∀ rest, u = "AmazonFederate_" ++ rest → TrimPrefix u "AmazonFederate_" = rest) ∧
    ((∀ rest, u ≠ "AmazonFederate_" ++ rest) → TrimPrefix u "AmazonFederate_" = u) ∧
    TrimPrefix "AmazonFederate_AmazonFederate_jdoe" "AmazonFederate_" = "AmazonFederate_jdoe" ∧
    TrimPrefix "AmazonFederate_jdoe" "AmazonFederate_" = "jdoe" ∧
    TrimPrefix "jdoe" "AmazonFederate_" = "jdoe" := by
  refine ⟨?_, ?_, TrimPrefix_of_no_prefix u "AmazonFederate_", by decide, by decide, by decide⟩
  · obtain ⟨tr, htr⟩ := handleAuth_reaches w code refresh token keys hreach
    rw [htr, hparse]
    dsimp only
    rw [hname]
    dsimp only [assertString]
    unfold retvalJson
    dsimp only
    cases w.writeJSON _ <;> rfl
  · intro rest hrest
    rw [hrest]
    exact TrimPrefix_append "AmazonFederate_" rest

/-- C4 at a concrete run: the verified token carries `username = AmazonFederate_jdoe`. -/
theorem handleAuth_username_prefix_stripped_witness :
    TrimPrefix "AmazonFederate_jdoe" "AmazonFederate_" = "jdoe" ∧
    (handleAuth (happyWorld sampleEnv sampleTokenJson
      [("username", .str "AmazonFederate_jdoe")]) "abc" "").1 =
      .ok "\x7b\"idToken\":\"IT\",\"refreshToken\":\"RT\",\"username\":\"jdoe\",\"expiresIn\":3600\x7d" := by
  have h := handleAuth_username_prefix_stripped
    (happyWorld sampleEnv sampleTokenJson [("username", .str "AmazonFederate_jdoe")]) "abc" ""
    ⟨"AT", "IT", "RT", 3600⟩ [("kid1", "key1")]
    ⟨[("username", .str "AmazonFederate_jdoe")]⟩ "AmazonFederate_jdoe"
    ⟨[("grant_type", ["authorization_code"]), ("client_id", ["client1"]),
      ("code", ["abc"]), ("redirect_uri", ["https://app.example.com/cb"])],
     ⟨200, "body"⟩, by decide, rfl, by decide, by decide, by decide⟩ rfl rfl
  exact ⟨h.2.1 "jdoe" (by decide), h.1⟩

/-! ## C5 -/

/-- C5, the run that breaks it: the exchange succeeds and the token verifies with a
`username` claim whose value is the number 42.  The unchecked assertion
`userName.(string)` panics, so `handleAuth` returns neither a payload nor an
error, and `HandleRequest` does not return a response. -/
theorem handleAuth_numeric_username_panics :
    handleAuth (happyWorld sampleEnv sampleTokenJson [("username", .int 42)]) "abc" "" =
      (.panic "interface conversion: interface \x7b\x7d is float64, not string",
        [.post "https://my-app.auth.us-east-1.amazoncognito.com/oauth2/token"
           [("grant_type", ["authorization_code"]), ("client_id", ["client1"]),
            ("code", ["abc"]), ("redirect_uri", ["https://app.example.com/cb"])],
         .decode "body",
         .fetch "https://cognito-idp.us-east-1.amazonaws.com/us-east-1_Abc/.well-known/jwks.json",
         .parse "AT" [("kid1", "key1")]]) ∧
    (HandleRequest (happyWorld sampleEnv sampleTokenJson [("username", .int 42)])
      (getRequest [("code", "abc")])).1 =
      .panic "interface conversion: interface \x7b\x7d is float64, not string" := by
  constructor <;> decide

/-! ## C6 -/

/-- C6, as stated, fails: `encoding/json` matches object keys to struct fields up to
case, and a later member overwrites an earlier one.  The provider's answer has
`id_token` "A" followed by `ID_TOKEN` "B", and no `refresh_token` member but a
`REFRESH_TOKEN` "X"; the run succeeds with `idToken` "B" and `refreshToken`
"X". -/
theorem folded_keys_override_token_fields :
    (∃ ms, foldedKeysJson = .obj ms ∧ ms.lookup "id_token" = some (.str "A") ∧
      ms.lookup "refresh_token" = none) ∧
    (handleAuth (happyWorld sampleEnv foldedKeysJson [("username", .str "jdoe")]) "abc" "").1 =
      .ok "\x7b\"idToken\":\"B\",\"refreshToken\":\"X\",\"username\":\"jdoe\",\"expiresIn\":3600\x7d" :=
  ⟨⟨_, rfl, rfl, rfl⟩, by decide⟩

/-- C6, amended: the body of a successful run is the marshalled JSON object with exactly the
members `idToken`, `refreshToken`, `username`, `expiresIn`, in which `idToken`,
`refreshToken` and `expiresIn` are the fields of the `token` struct decoded
from the provider's answer.  Each of these fields is the value the answer
carries for it: when the answer is an object and some member for the field
(its key is the field's tag, `id_token`, `refresh_token` or `expires_in`, or
folds to it) has the non-null value `v`, every other member for that field
being `null` or `v` too, the field is `v`; when the answer has no member for
`refresh_token`, `refreshToken` is the empty string. -/
theorem handleAuth_body_copies_tokens (w : World) (code refresh body : String)
    (h : (handleAuth w code refresh).1 = .ok body) :
    ∃ form resp j token username,
      formOf w code refresh = some form ∧
      w.postForm (endpointOf w) form = .ok resp ∧
      w.readJSON resp.Body = .ok j ∧
      decodeTokenValue w.foldName j = some token ∧
      w.writeJSON (.obj [("idToken", token.get .idToken),
        ("refreshToken", token.get .refreshToken),
        ("username", .str username),
        ("expiresIn", token.get .expiresIn)]) = .ok body ∧
      token.get .idToken = .str token.IDToken ∧
      token.get .refreshToken = .str token.RefreshToken ∧
      token.get .expiresIn = .int token.ExpiresIn ∧
      (∀ ms, j = .obj ms → ∀ (f : TokenField) (k : String) (v : Json),
        (k, v) ∈ ms → (k = f.tag ∨ fieldOfKey w.foldName k = some f) → v ≠ .null →
        (∀ k' v', (k', v') ∈ ms → fieldOfKey w.foldName k' = some f → v' = .null ∨ v' = v) →
        token.get f = v) ∧
      (∀ ms, j = .obj ms →
        (∀ k v, (k, v) ∈ ms → fieldOfKey w.foldName k ≠ some .refreshToken) →
        token.RefreshToken = "") := by
  obtain ⟨form, resp, token, iss, keys, parsed, u, hform, hpost, hst, hdec, hiss, hfetch, hk,
    hparse, hname, hwrite, _⟩ := handleAuth_ok_inv w code refresh body h
  unfold decodeToken at hdec
  cases hj : w.readJSON resp.Body with
  | error e => rw [hj] at hdec; cases hdec
  | ok j =>
    rw [hj] at hdec
    dsimp only at hdec
    refine ⟨form, resp, j, token, TrimPrefix u "AmazonFederate_", hform, hpost, hj, hdec,
      hwrite, rfl, rfl, rfl, ?_, ?_⟩
    · intro ms hms f k v hmem hkey hv hall
      subst hms
      have hkey' : fieldOfKey w.foldName k = some f := by
        rcases hkey with hkey | hkey
        · rw [hkey]; exact fieldOfKey_tag w.foldName f
        · exact hkey
      exact decodeMembers_value w.foldName f k v hkey' hv ms Token.zero token hdec hmem hall
    · intro ms hms hnone
      subst hms
      have hkeep := decodeMembers_keep w.foldName .refreshToken ms Token.zero token hdec
        (fun k v hmem hf => absurd hf (hnone k v hmem))
      have hz : Token.zero.get .refreshToken = .str "" := rfl
      rw [hz] at hkeep
      have hget : token.get .refreshToken = .str token.RefreshToken := rfl
      rw [hget] at hkeep
      exact Json.str.inj hkeep

/-- C6 at a concrete run: a refresh grant whose answer carries no `refresh_token`. -/
theorem handleAuth_body_copies_tokens_witness :
    (handleAuth (happyWorld sampleEnv refreshGrantJson [("username", .str "jdoe")]) "" "xyz").1 =
      .ok "\x7b\"idToken\":\"IT\",\"refreshToken\":\"\",\"username\":\"jdoe\",\"expiresIn\":3600\x7d" ∧
    ∃ token, decodeTokenValue asciiLower refreshGrantJson = some token ∧
      token.IDToken = "IT" ∧ token.RefreshToken = "" ∧ token.ExpiresIn = 3600 := by
  have hok : (handleAuth (happyWorld sampleEnv refreshGrantJson [("username", .str "jdoe")])
      "" "xyz").1 =
      .ok "\x7b\"idToken\":\"IT\",\"refreshToken\":\"\",\"username\":\"jdoe\",\"expiresIn\":3600\x7d" := by
    decide
  obtain ⟨form, resp, j, token, username, _, _, hread, hdec, _, _, _, _, hval, hnone⟩ :=
    handleAuth_body_copies_tokens _ "" "xyz" _ hok
  have hj : j = refreshGrantJson := (Except.ok.inj hread).symm
  subst hj
  refine ⟨hok, token, hdec, ?_, ?_, ?_⟩
  · have h := hval _ rfl .idToken "id_token" (.str "IT") (by simp) (Or.inl rfl)
      (fun h => Json.noConfusion h) (by
        intro k' v' hmem hf
        simp only [List.mem_cons, List.mem_singleton, Prod.mk.injEq, List.not_mem_nil,
          or_false] at hmem
        rcases hmem with ⟨hk, _⟩ | ⟨_, hv⟩ | ⟨hk, _⟩
        · subst hk; exact absurd hf (by decide)
        · exact Or.inr hv
        · subst hk; exact absurd hf (by decide))
    exact Json.str.inj h.symm |>.symm
  · refine hnone _ rfl ?_
    intro k v hmem
    simp only [List.mem_cons, List.mem_singleton, Prod.mk.injEq, List.not_mem_nil,
      or_false] at hmem
    rcases hmem with ⟨hk, _⟩ | ⟨hk, _⟩ | ⟨hk, _⟩ <;> subst hk <;> decide
  · have h := hval _ rfl .expiresIn "expires_in" (.int 3600) (by simp) (Or.inl rfl)
      (fun h => Json.noConfusion h) (by
        intro k' v' hmem hf
        simp only [List.mem_cons, List.mem_singleton, Prod.mk.injEq, List.not_mem_nil,
          or_false] at hmem
        rcases hmem with ⟨hk, _⟩ | ⟨hk, _⟩ | ⟨_, hv⟩
        · subst hk; exact absurd hf (by decide)
        · subst hk; exact absurd hf (by decide)
        · exact Or.inr hv)
    exact Json.int.inj h.symm |>.symm

/-! ## C10 -/

/-- C10, as stated, fails at two runs.  With `COGNITO_POOL_ID` unset and the other
four values set, a `GET` with a code posts the token exchange, decodes its
answer, and only then fails; the response is the same 401 "Auth Failure" as for
any request-time failure.  With `COGNITO_REDIRECT_URI` unset and the other four
values set, a `GET` with a refresh token posts the token exchange and ends in
a 200 with the payload. -/
theorem missing_config_is_no_configuration_error :
    (poollessEnv "COGNITO_POOL_ID" = "" ∧
      HandleRequest (happyWorld poollessEnv sampleTokenJson [("username", .str "jdoe")])
          (getRequest [("code", "abc")]) =
        (.ok (Fail 401 "Auth Failure"),
          [.post "https://my-app.auth.us-east-1.amazoncognito.com/oauth2/token"
             [("grant_type", ["authorization_code"]), ("client_id", ["client1"]),
              ("code", ["abc"]), ("redirect_uri", ["https://app.example.com/cb"])],
           .decode "body"])) ∧
    (noRedirectEnv "COGNITO_REDIRECT_URI" = "" ∧
      HandleRequest (happyWorld noRedirectEnv refreshGrantJson [("username", .str "jdoe")])
          (getRequest [("refresh", "xyz")]) =
        (.ok { StatusCode := 200, Headers := (AddCORSHeaders ⟨200, [], ""⟩).Headers,
               Body := "\x7b\"idToken\":\"IT\",\"refreshToken\":\"\",\"username\":\"jdoe\",\"expiresIn\":3600\x7d" },
          [.post "https://my-app.auth.us-east-1.amazoncognito.com/oauth2/token"
             [("grant_type", ["refresh_token"]), ("client_id", ["client1"]),
              ("refresh_token", ["xyz"])],
           .decode "body",
           .fetch "https://cognito-idp.us-east-1.amazonaws.com/us-east-1_Abc/.well-known/jwks.json",
           .parse "AT" [("kid1", "key1")]])) := by
  refine ⟨⟨?_, ?_⟩, ?_, ?_⟩ <;> decide

/-- C10, amended: for every `GET` in an environment where the region or the pool
identifier is empty, `HandleRequest` returns the 401 "Auth Failure" response
(never a 200), the error coming from `getCognitoIssuer`, which runs after the
token exchange: no JWKS fetch and no token verification is made, while the
token exchange is still posted whenever a code or a refresh token is given. -/
theorem missing_issuer_config_gives_auth_failure (w : World) (request : APIGatewayProxyRequest)
    (hget : request.HTTPMethod = "GET")
    (hmissing : w.getenv "COGNITO_REGION" = "" ∨ w.getenv "COGNITO_POOL_ID" = "") :
    (HandleRequest w request).1 = .ok (Fail 401 "Auth Failure") ∧
    (∃ msg, getCognitoIssuer w = .err msg) ∧
    (∀ url, .fetch url ∉ (HandleRequest w request).2) ∧
    (∀ tok keys, .parse tok keys ∉ (HandleRequest w request).2) ∧
    (∀ form, formOf w (request.QueryStringParameters.get "code")
        (request.QueryStringParameters.get "refresh") = some form →
      (HandleRequest w request).2.head? = some (.post (endpointOf w) form)) := by
  obtain ⟨⟨msg, hmsg⟩, htr⟩ := handleAuth_missing_issuer w
    (request.QueryStringParameters.get "code") (request.QueryStringParameters.get "refresh")
    hmissing
  have htrace := HandleRequest_get_trace w request hget
  refine ⟨?_, getCognitoIssuer_missing w hmissing, ?_, ?_, ?_⟩
  · rcases hr : handleAuth w (request.QueryStringParameters.get "code")
        (request.QueryStringParameters.get "refresh") with ⟨r, tr⟩
    rw [hr] at hmsg
    dsimp only at hmsg
    subst hmsg
    simp only [HandleRequest, hget, if_true, hr]
  · intro url hmem
    rw [htrace] at hmem
    rcases htr _ hmem with ⟨_, _, he⟩ | ⟨_, he⟩ <;> cases he
  · intro tok keys hmem
    rw [htrace] at hmem
    rcases htr _ hmem with ⟨_, _, he⟩ | ⟨_, he⟩ <;> cases he
  · intro form hform
    rw [htrace]
    exact handleAuth_first_call w _ _ form hform

/-- C10 amended, at a concrete run: the pool identifier is unset. -/
theorem missing_issuer_config_gives_auth_failure_witness :
    poollessEnv "COGNITO_POOL_ID" = "" ∧
    (HandleRequest (happyWorld poollessEnv sampleTokenJson [("username", .str "jdoe")])
      (getRequest [("refresh", "xyz")])).1 = .ok (Fail 401 "Auth Failure") :=
  ⟨rfl, (missing_issuer_config_gives_auth_failure
    (happyWorld poollessEnv sampleTokenJson [("username", .str "jdoe")])
    (getRequest [("refresh", "xyz")]) rfl (Or.inr rfl)).1⟩

end JwtAuth

